import Mathlib

/-!
Verification of the research orchestration core of the ACouncilOfAIEditors
repository against its natural-language specification.

The Python sources are shallowly embedded:
* JSON-like values (Python dicts / lists / strings as produced by
  `json.loads` and built literally in the code) are modeled by `RVal`;
  Python dicts are association lists (`RDict`) with first-match lookup.
* `src/backend/models/research.py` (`Node`, `to_dict`, `from_dict`,
  `find_node_by_id`) is modeled by the `Node` inductive and the mutual
  recursions below; `uuid.uuid4().hex` and `datetime.utcnow()` are modeled
  as explicit parameters (`gen`, `now`) since they are only consulted on
  the code paths where the Python code would call them.
* `src/langchain/chains/ai_council.py` (`AICouncil`) is modeled with the
  council state as an association list from member name to its enabled
  flag and the per-provider research outcome supplied as an oracle
  function, mirroring `asyncio.gather(..., return_exceptions=True)`:
  each enabled member's task settles either with a result dict or with an
  exception.
* `src/langchain/chains/research_services.py`
  (`MongoDBService.add_subtopic_node`, `GrokDeepSearchService.search`) and
  `src/langchain/chains/research_chain.py` (`ResearchOrchestrator`) are
  modeled likewise; database writes are recorded as data in the returned
  structures (progress snapshots, status) rather than performed.
-/

namespace ACouncil

/-- JSON-like values: Python strings, numbers, lists and dicts as they flow
through the research code. -/
inductive RVal : Type where
  | str (s : String) : RVal
  | num (n : Int) : RVal
  | arr (xs : List RVal) : RVal
  | obj (kvs : List (String × RVal)) : RVal

/-- A Python dict with string keys, as an association list (first match wins,
insertion appends at the end, mirroring dict semantics for duplicate-free
lists). -/
abbrev RDict := List (String × RVal)

/-! ## Node (src/src/backend/models/research.py, class Node)

`created_at` / `updated_at` are modeled as natural-number timestamps. -/

/-- One vertex of a provider's research tree, mirroring the attributes set in
`Node.__init__`. -/
inductive Node : Type where
  | mk (node_id : String) (topic : String) (status : String) (research : RDict)
       (children : List Node) (created_at : Nat) (updated_at : Nat) : Node

def Node.node_id : Node → String
  | .mk i _ _ _ _ _ _ => i

def Node.topic : Node → String
  | .mk _ t _ _ _ _ _ => t

def Node.status : Node → String
  | .mk _ _ s _ _ _ _ => s

def Node.research : Node → RDict
  | .mk _ _ _ r _ _ _ => r

def Node.children : Node → List Node
  | .mk _ _ _ _ cs _ _ => cs

/-- The dictionary shape produced by `Node.to_dict` and consumed by
`Node.from_dict`.  Keys that `from_dict` reads with `.get` (and which may
therefore be absent) are `Option`-valued; `topic` is read with `data["topic"]`
and so is mandatory.  A missing `children` key is modeled as the empty list
(the `.get("children", [])` default). -/
inductive NodeDict : Type where
  | mk (node_id : Option String) (topic : String) (status : Option String)
       (research : Option RDict) (children : List NodeDict)
       (created_at : Option Nat) (updated_at : Option Nat) : NodeDict

/-- `Node.__init__`: `node_id` falls back to a freshly generated
`uuid4().hex` (modeled by `gen`) when the passed value is `None` or the empty
string (both falsy in Python); `created_at` / `updated_at` fall back to
`datetime.utcnow()` (modeled by `now`). -/
def Node.init (gen : String) (now : Nat) (topic : String) (node_id : Option String)
    (status : String) (research : Option RDict) (children : Option (List Node))
    (created_at : Option Nat) (updated_at : Option Nat) : Node :=
  Node.mk
    (match node_id with
     | some s => if s = "" then gen else s
     | none => gen)
    topic status (research.getD []) (children.getD [])
    (created_at.getD now) (updated_at.getD now)

mutual

/-- `Node.to_dict`: every key is always emitted. -/
def Node.to_dict : Node → NodeDict
  | .mk i t s r cs ca ua =>
    NodeDict.mk (some i) t (some s) (some r) (toDictList cs) (some ca) (some ua)

def toDictList : List Node → List NodeDict
  | [] => []
  | c :: rest => Node.to_dict c :: toDictList rest

end

mutual

/-- `Node.from_dict`: reads each key with `.get` and its default, then goes
through `Node.__init__` (hence the falsy-`node_id` regeneration). -/
def Node.from_dict (gen : String) (now : Nat) : NodeDict → Node
  | .mk i t s r cs ca ua =>
    Node.init gen now t i (s.getD "initializing") (some (r.getD []))
      (some (fromDictList gen now cs)) ca ua

def fromDictList (gen : String) (now : Nat) : List NodeDict → List Node
  | [] => []
  | c :: rest => Node.from_dict gen now c :: fromDictList gen now rest

end

mutual

/-- `Node.find_node_by_id`: depth-first search, the node itself first, then
its children in order. -/
def find_node_by_id (n : Node) (id : String) : Option Node :=
  match n with
  | .mk i _ _ _ cs _ _ =>
    if i = id then some n else findInChildren cs id

def findInChildren (l : List Node) (id : String) : Option Node :=
  match l with
  | [] => none
  | c :: rest =>
    match find_node_by_id c id with
    | some f => some f
    | none => findInChildren rest id

end

mutual

/-- The locate-and-append logic of `MongoDBService.add_subtopic_node`: first
the root-level test (`trees.{ai}.node_id == parent_node_id` with a `$push`
onto its `children`), otherwise the recursive traversal
(`traverse_and_update`), which appends `new_node` to the children of the
first node found in depth-first order whose `node_id` matches and reports
via `found` whether any match was hit.  Returns the success flag and the
(possibly) mutated tree. -/
def add_subtopic_node (n : Node) (parent_node_id : String) (new_node : Node) :
    Bool × Node :=
  match n with
  | .mk i t s r cs ca ua =>
    if i = parent_node_id then (true, .mk i t s r (cs ++ [new_node]) ca ua)
    else
      let p := addInChildren cs parent_node_id new_node
      (p.1, .mk i t s r p.2 ca ua)

def addInChildren (l : List Node) (parent_node_id : String) (new_node : Node) :
    Bool × List Node :=
  match l with
  | [] => (false, [])
  | c :: rest =>
    let p := add_subtopic_node c parent_node_id new_node
    if p.1 then (true, p.2 :: rest)
    else
      let q := addInChildren rest parent_node_id new_node
      (q.1, c :: q.2)

end

/-- Combined induction principle over a node and over lists of nodes, from the
nested recursor. -/
theorem Node.ind2 (P : Node → Prop) (Q : List Node → Prop)
    (hmk : ∀ i t s r cs ca ua, Q cs → P (.mk i t s r cs ca ua))
    (hnil : Q [])
    (hcons : ∀ c cs, P c → Q cs → Q (c :: cs)) :
    ∀ n, P n := by
  intro n
  induction n using Node.rec (motive_2 := Q) with
  | mk i t s r cs ca ua ih => exact hmk i t s r cs ca ua ih
  | nil => exact hnil
  | cons c cs ih1 ih2 => exact hcons c cs ih1 ih2

/-- Both halves of the combined induction. -/
theorem Node.ind2L (P : Node → Prop) (Q : List Node → Prop)
    (hmk : ∀ i t s r cs ca ua, Q cs → P (.mk i t s r cs ca ua))
    (hnil : Q [])
    (hcons : ∀ c cs, P c → Q cs → Q (c :: cs)) :
    (∀ n, P n) ∧ (∀ l, Q l) := by
  have hn : ∀ n, P n := Node.ind2 P Q hmk hnil hcons
  refine ⟨hn, ?_⟩
  intro l
  induction l with
  | nil => exact hnil
  | cons c cs ih => exact hcons c cs (hn c) ih

/-! ## AICouncil (src/src/langchain/chains/ai_council.py) -/

/-- Council state: member name paired with its `enabled` flag, in the fixed
dict order of `AICouncil.__init__`. -/
abbrev Council := List (String × Bool)

/-- The initial member dict of `AICouncil.__init__`: only Grok is enabled by
default. -/
def initMembers : Council :=
  [("claude", false), ("chatgpt", false), ("gemini", false), ("grok", true)]

def councilNames (members : Council) : List String := members.map Prod.fst

/-- The outcome of one member's settled `research` task under
`asyncio.gather(..., return_exceptions=True)`: either the result dict
(`result["result"]`) or the raised exception. -/
inductive ProvOutcome : Type where
  | ok (result : RDict) : ProvOutcome
  | exn (msg : String) : ProvOutcome

/-- One root node dict as built inline by `AICouncil.conduct_research`
(both branches): `node_id` is the supplied `session_id`, `children` is the
literal empty list. -/
structure CouncilNode where
  node_id : Option String
  topic : String
  status : String
  research : RDict

/-- The empty research dict of the failure branch of
`AICouncil.conduct_research` (lines 202-209): exactly these six keys. -/
def emptyResearchDict : RDict :=
  [("summary", RVal.str ""), ("key_points", RVal.arr []),
   ("entities", RVal.arr []), ("timeline", RVal.arr []),
   ("further_research", RVal.arr []), ("references", RVal.arr [])]

/-- The result object of `AICouncil.conduct_research`. -/
structure CouncilRunOut where
  topic : String
  session_id : Option String
  parent_id : Option String
  trees : List (String × CouncilNode)

/-- The members enabled at invocation time, in dict order
(`enabled_members` in the source). -/
def enabledNames (members : Council) : List String :=
  (members.filter Prod.snd).map Prod.fst

/-- `AICouncil.conduct_research`: one research task per enabled member,
gathered with `return_exceptions=True`; a member whose task raised still
gets a tree entry, carrying `status="completed"` and the six-key empty
research dict; a successful member's entry carries its `result["result"]`
dict.  `f` gives each member's settled outcome. -/
def conduct_research (members : Council) (topic : String)
    (session_id : Option String) (parent_id : Option String)
    (f : String → ProvOutcome) : CouncilRunOut :=
  { topic := topic
    session_id := session_id
    parent_id := parent_id
    trees :=
      (enabledNames members).map (fun name =>
        (name,
          match f name with
          | .exn _ =>
            { node_id := session_id, topic := topic, status := "completed"
              research := emptyResearchDict }
          | .ok result =>
            { node_id := session_id, topic := topic, status := "completed"
              research := result })) }

/-- `AICouncil.enable_member`: raises `ResearchError` when the name is not a
key of the member dict, otherwise sets its `enabled` flag to `True`. -/
def enable_member (members : Council) (name : String) : Except String Council :=
  if (members.lookup name).isSome then
    .ok (members.map (fun p => if p.1 = name then (p.1, true) else p))
  else
    .error ("Unknown member: " ++ name)

/-- `AICouncil.disable_member`: raises `ResearchError` when the name is not a
key of the member dict, otherwise sets its `enabled` flag to `False`. -/
def disable_member (members : Council) (name : String) : Except String Council :=
  if (members.lookup name).isSome then
    .ok (members.map (fun p => if p.1 = name then (p.1, false) else p))
  else
    .error ("Unknown member: " ++ name)

/-! ## Grok response normalization
(src/src/langchain/chains/research_services.py, `GrokDeepSearchService.search`,
lines 537-570) -/

/-- The content of a Grok reply after markdown-fence stripping, at the
`json.loads` boundary: either the parsed JSON value or a parse failure
(`json.JSONDecodeError`). -/
inductive GrokContent : Type where
  | parsed (j : RVal) : GrokContent
  | unparsable : GrokContent

/-- The `required_fields` list of `GrokDeepSearchService.search`. -/
def requiredFields : List String :=
  ["summary", "key_points", "entities", "subtopics",
   "timeline", "further_research", "references"]

/-- The default filled in for a missing required field:
`[] if field != "summary" else ""`. -/
def emptyFor (f : String) : RVal :=
  if f = "summary" then RVal.str "" else RVal.arr []

/-- One iteration of the validation loop
(`if field not in structured_data: structured_data[field] = ...`), with
Python semantics of `in` and item assignment on each value shape: dict
membership is key lookup and assignment appends; `in` on a string is a
substring test and assignment raises `TypeError`; `in` on a list is element
equality and assignment with a string index raises `TypeError`; `in` on a
number raises `TypeError`.  Raised errors are caught by the surrounding
handlers and surface as `SearchError`. -/
def fillStep (v : RVal) (f : String) : Except String RVal :=
  match v with
  | .obj kvs =>
    if (kvs.lookup f).isSome then .ok v
    else .ok (.obj (kvs ++ [(f, emptyFor f)]))
  | .str s =>
    if f.toList <:+: s.toList then .ok v
    else .error "Grok DeepSearch failed: TypeError"
  | .arr xs =>
    if xs.any (fun x => match x with | .str s => s = f | _ => false) then .ok v
    else .error "Grok DeepSearch failed: TypeError"
  | .num _ => .error "Grok DeepSearch failed: TypeError"

/-- The normalization step of `GrokDeepSearchService.search`: a
`json.JSONDecodeError` is re-raised as `SearchError`; otherwise the
validation loop runs over `required_fields` in order. -/
def grokNormalize (c : GrokContent) : Except String RVal :=
  match c with
  | .unparsable => .error "Failed to parse Grok response as JSON"
  | .parsed j => requiredFields.foldlM fillStep j

/-! ## ResearchOrchestrator.run_research
(src/src/langchain/chains/research_chain.py, lines 77-136)

After the two search tasks settle (each task resolves its own cache / fallback
strategy internally and ends with either a stored result or a raised
exception, in which case its slot in `self.results` stays `None`), the
decision logic of lines 99-129 runs.  `g` / `k` are the settled values of
`self.results["google_search"]` / `self.results["grok_deepsearch"]`. -/

/-- The return value of a successful `run_research`. -/
structure RunResearchOut where
  status : String
  warnings : Option String

/-- `error_message`: the first settled exception, scanned in task order
(Google Search first, then Grok DeepSearch); a task raised exactly when its
results slot is still `None`. -/
def componentError (g k : Option RDict) : Option String :=
  if g.isNone then some "Google Search error"
  else if k.isNone then some "Grok DeepSearch error"
  else none

/-- `ResearchOrchestrator.run_research`, lines 113-129: when both components
settled with no result, the guide status is set to `error` and the aggregate
`Exception("All research components failed")` is raised; otherwise the run
returns normally with status `paused_research`, carrying the first component
failure (if any) as a warning. -/
def run_research (g k : Option RDict) : Except String RunResearchOut :=
  if g.isNone && k.isNone then .error "All research components failed"
  else .ok { status := "paused_research", warnings := componentError g k }

/-! ## ResearchOrchestrator.research_selected_subtopics
(src/src/langchain/chains/research_chain.py, lines 544-616) -/

/-- One entry of `selected_topics`. -/
structure TopicData where
  topic : String
  rationale : String

/-- One recorded per-topic outcome (an element of `subtopic_results`):
either the dict returned by `_research_subtopic` (which itself reports
`status="completed"` or `status="error"`) or the error record synthesized
when the gathered result is an exception. -/
inductive OutcomeRec : Type where
  | completed (topic : String) (research_summary : String) : OutcomeRec
  | err (topic : String) (msg : String) : OutcomeRec

/-- The settled value of one gathered `_research_subtopic` task: a returned
outcome dict, or a raised exception (gathered with
`return_exceptions=True`). -/
inductive SubResult : Type where
  | res (r : OutcomeRec) : SubResult
  | exn (msg : String) : SubResult

/-- The batches of the processing loop
(`for i in range(0, total_topics, concurrency_limit)` with
`concurrency_limit = 3`). -/
def chunks3 : List TopicData → List (List TopicData)
  | [] => []
  | [a] => [[a]]
  | [a, b] => [[a, b]]
  | a :: b :: c :: rest => [a, b, c] :: chunks3 rest

/-- The topics of a batch for which a task is created: entries whose
`topic` name is falsy (empty) are skipped by the `continue`. -/
def batchTasks (batch : List TopicData) : List TopicData :=
  batch.filter (fun td => td.topic ≠ "")

/-- The recording loop over `enumerate(batch_results)`: `batch_results[j]`
is paired with `batch[j]` (the original batch, not the task list — when a
falsy-named topic was skipped the indices shift).  Each iteration appends
one outcome record, increments `completed_topics` and writes a progress
snapshot.  Returns the outcome records, the progress snapshots (as
`(total, completed)` pairs) and the final counter. -/
def recordResults (total : Nat) :
    List (SubResult × TopicData) → Nat → List OutcomeRec × List (Nat × Nat) × Nat
  | [], completed => ([], [], completed)
  | (r, td) :: rest, completed =>
    let o := match r with
      | .res rec0 => rec0
      | .exn m => OutcomeRec.err td.topic m
    let out := recordResults total rest (completed + 1)
    (o :: out.1, (total, completed + 1) :: out.2.1, out.2.2)

/-- The batch loop: for each batch, tasks are created for its non-falsy
topics, gathered (the `j`-th created task of the whole run settles as
`f j`), and recorded against the batch by index.  Also returns, for the
claims about provider calls, the list of topics a research task was created
for. -/
def runBatches (f : Nat → SubResult) (total : Nat) :
    List (List TopicData) → Nat → Nat →
    List OutcomeRec × List (Nat × Nat) × List String × Nat
  | [], _, completed => ([], [], [], completed)
  | batch :: rest, taskIdx, completed =>
    let tasks := batchTasks batch
    let results := (List.range tasks.length).map (fun j => f (taskIdx + j))
    let rec0 := recordResults total (results.zip batch) completed
    let out := runBatches f total rest (taskIdx + tasks.length) rec0.2.2
    (rec0.1 ++ out.1, rec0.2.1 ++ out.2.1,
     tasks.map TopicData.topic ++ out.2.2.1, out.2.2.2)

/-- The return value of `research_selected_subtopics` together with the
run's observable side effects: the progress snapshots written to the
database (in write order) and the topics for which a research task was
created. -/
structure SelectedRunOut where
  status : String
  message : Option String
  subtopics_researched : Nat
  results : List OutcomeRec
  progress : List (Nat × Nat)
  calls : List String

/-- `ResearchOrchestrator.research_selected_subtopics`: an empty topic list
returns the error outcome immediately (before any progress write or task);
otherwise an initial `(total, 0)` progress snapshot is written and the
topics are processed in sequential batches of at most 3. -/
def research_selected_subtopics (topics : List TopicData)
    (f : Nat → SubResult) : SelectedRunOut :=
  if topics.isEmpty then
    { status := "error", message := some "No topics selected"
      subtopics_researched := 0, results := [], progress := [], calls := [] }
  else
    let total := topics.length
    let out := runBatches f total (chunks3 topics) 0 0
    { status := "completed", message := none
      subtopics_researched := out.2.2.2, results := out.1
      progress := (total, 0) :: out.2.1, calls := out.2.2.1 }

/-! ## Supporting lemmas -/

theorem lookup_isSome_iff_mem_keys (l : List (String × Bool)) (name : String) :
    (l.lookup name).isSome ↔ name ∈ councilNames l := by
  simp only [councilNames, List.lookup_isSome_iff, List.mem_map, beq_iff_eq]
  constructor
  · rintro ⟨p, hp, h⟩
    exact ⟨p, hp, h.symm⟩
  · rintro ⟨p, hp, h⟩
    exact ⟨p, hp, h.symm⟩

theorem map_setFlag_lookup_isSome (l : List (String × Bool)) (name : String)
    (b : Bool) :
    ((l.map (fun p => if p.1 = name then (p.1, b) else p)).lookup name).isSome
      ↔ (l.lookup name).isSome := by
  simp only [List.lookup_isSome_iff, List.mem_map]
  constructor
  · rintro ⟨p, ⟨q, hq, rfl⟩, hbeq⟩
    refine ⟨q, hq, ?_⟩
    revert hbeq
    by_cases h : q.1 = name <;> simp [h]
  · rintro ⟨q, hq, hbeq⟩
    refine ⟨_, ⟨q, hq, rfl⟩, ?_⟩
    revert hbeq
    by_cases h : q.1 = name <;> simp [h]

theorem map_setFlag_idem (l : List (String × Bool)) (name : String) (b : Bool) :
    ((l.map (fun p => if p.1 = name then (p.1, b) else p)).map
        (fun p => if p.1 = name then (p.1, b) else p))
      = l.map (fun p => if p.1 = name then (p.1, b) else p) := by
  rw [List.map_map]
  apply List.map_congr_left
  intro p _
  obtain ⟨k, v⟩ := p
  by_cases h : k = name
  · simp [h]
  · simp [h]

theorem map_fst_map_pair {β : Type} (l : List String) (g : String → β) :
    (l.map (fun name => (name, g name))).map Prod.fst = l := by
  induction l with
  | nil => rfl
  | cons a rest ih => simp [ih]

/-- Appending one child to a node's `children` list, leaving everything else
unchanged. -/
def appendChild (n : Node) (nn : Node) : Node :=
  match n with
  | .mk i t s r cs ca ua => .mk i t s r (cs ++ [nn]) ca ua

theorem add_found_iff_find :
    (∀ n, ∀ pid nn, (add_subtopic_node n pid nn).1 = true
        ↔ (find_node_by_id n pid).isSome) ∧
      (∀ l, ∀ pid nn, (addInChildren l pid nn).1 = true
        ↔ (findInChildren l pid).isSome) := by
  apply Node.ind2L
  · intro i t s r cs ca ua ih pid nn
    rw [add_subtopic_node, find_node_by_id]
    by_cases h : i = pid
    · simp [h]
    · simp only [if_neg h]
      exact ih pid nn
  · intro pid nn
    simp [addInChildren, findInChildren]
  · intro c cs ihc ihcs pid nn
    rw [addInChildren, findInChildren]
    rcases hf : find_node_by_id c pid with _ | q
    · have hb : (add_subtopic_node c pid nn).1 = false := by
        have := (ihc pid nn)
        rw [hf] at this
        simpa using this
      simp only [hb]
      simp only [Bool.false_eq_true, if_false]
      exact ihcs pid nn
    · have hb : (add_subtopic_node c pid nn).1 = true := by
        rw [ihc pid nn, hf]
        rfl
      simp [hb]

theorem add_not_found_unchanged :
    (∀ n, ∀ pid nn, (add_subtopic_node n pid nn).1 = false
        → (add_subtopic_node n pid nn).2 = n) ∧
      (∀ l, ∀ pid nn, (addInChildren l pid nn).1 = false
        → (addInChildren l pid nn).2 = l) := by
  apply Node.ind2L
  · intro i t s r cs ca ua ih pid nn h
    rw [add_subtopic_node] at h ⊢
    by_cases hi : i = pid
    · simp [hi] at h
    · simp only [if_neg hi] at h ⊢
      rw [ih pid nn h]
  · intro pid nn _
    rfl
  · intro c cs ihc ihcs pid nn h
    rw [addInChildren] at h ⊢
    by_cases hb : (add_subtopic_node c pid nn).1 = true
    · simp [hb] at h
    · simp only [Bool.not_eq_true] at hb
      simp only [hb, Bool.false_eq_true, if_false] at h ⊢
      simp only [List.cons.injEq, true_and]
      exact ihcs pid nn h

theorem add_found_appends_to_parent :
    (∀ n, ∀ pid nn p, find_node_by_id n pid = some p
        → find_node_by_id (add_subtopic_node n pid nn).2 pid
          = some (appendChild p nn)) ∧
      (∀ l, ∀ pid nn p, findInChildren l pid = some p
        → findInChildren (addInChildren l pid nn).2 pid
          = some (appendChild p nn)) := by
  apply Node.ind2L
  · intro i t s r cs ca ua ih pid nn p hp
    rw [find_node_by_id] at hp
    rw [add_subtopic_node]
    by_cases h : i = pid
    · rw [if_pos h] at hp ⊢
      simp only [Option.some.injEq] at hp
      rw [find_node_by_id, if_pos h]
      rw [← hp]
      rfl
    · rw [if_neg h] at hp ⊢
      rw [find_node_by_id, if_neg h]
      exact ih pid nn p hp
  · intro pid nn p hp
    simp [findInChildren] at hp
  · intro c cs ihc ihcs pid nn p hp
    rw [findInChildren] at hp
    rw [addInChildren]
    rcases hf : find_node_by_id c pid with _ | q
    · rw [hf] at hp
      have hb : (add_subtopic_node c pid nn).1 = false := by
        have := (add_found_iff_find.1 c pid nn)
        rw [hf] at this
        simpa using this
      have hunch : (add_subtopic_node c pid nn).2 = c :=
        add_not_found_unchanged.1 c pid nn hb
      simp only [hb, Bool.false_eq_true, if_false]
      rw [findInChildren, hf]
      exact ihcs pid nn p hp
    · rw [hf] at hp
      simp only [Option.some.injEq] at hp
      subst hp
      have hb : (add_subtopic_node c pid nn).1 = true := by
        rw [add_found_iff_find.1 c pid nn, hf]
        rfl
      simp only [hb, if_true]
      rw [findInChildren, ihc pid nn q hf]

/-! ## Claim theorems -/

/-- Claim C1: for every council state, topic, session and per-provider
outcome oracle, the `trees` mapping returned by `conduct_research` has
exactly the providers enabled at invocation time as its keys, in order —
one key per enabled provider, none for a disabled provider — no matter how
many of the gathered tasks settled with an exception. -/
theorem conduct_research_keys_eq_enabled (members : Council) (topic : String)
    (sid pid : Option String) (f : String → ProvOutcome) :
    (conduct_research members topic sid pid f).trees.map Prod.fst
      = enabledNames members := by
  simp only [conduct_research]
  exact map_fst_map_pair _ _

/-- Claim C7: invoked with an empty topic list,
`research_selected_subtopics` returns the validation-error outcome at once:
no research task is created (`calls = []`), no progress snapshot is written
(`progress = []`), and no batch is processed. -/
theorem research_selected_empty_is_error (f : Nat → SubResult) :
    research_selected_subtopics [] f
      = { status := "error", message := some "No topics selected"
          subtopics_researched := 0, results := [], progress := []
          calls := [] } := rfl

/-- Claim C8: when a session id is supplied, every root node built by
`conduct_research` — in the success branch and in the failure branch alike —
has that session id as its `node_id`. -/
theorem conduct_research_node_id_eq_session (members : Council)
    (topic s : String) (pid : Option String) (f : String → ProvOutcome)
    (p : String × CouncilNode)
    (hp : p ∈ (conduct_research members topic (some s) pid f).trees) :
    p.2.node_id = some s := by
  simp only [conduct_research, List.mem_map] at hp
  obtain ⟨name, _, hpe⟩ := hp
  subst hpe
  cases f name <;> rfl

/-- The concrete failure-branch node used in witnesses: what
`conduct_research` builds for an enabled member whose task raised, with
session id `sess` and topic `t`. -/
def grokFailEntry : String × CouncilNode :=
  ("grok",
    { node_id := some "sess", topic := "t", status := "completed"
      research := emptyResearchDict })

/-- Witness for C8 at a concrete input: the default council (only Grok
enabled), a supplied session id and a failing provider call. -/
theorem conduct_research_node_id_eq_session_witness :
    grokFailEntry ∈
        (conduct_research initMembers "t" (some "sess") none
          (fun _ => ProvOutcome.exn "boom")).trees ∧
      grokFailEntry.2.node_id = some "sess" := by
  refine ⟨List.mem_singleton.mpr rfl, ?_⟩
  exact conduct_research_node_id_eq_session initMembers "t" "sess" none
    (fun _ => ProvOutcome.exn "boom") _ (List.mem_singleton.mpr rfl)

/-- Claim C9: `enable_member` and `disable_member` fail with the
unknown-member error exactly when the name is not among the council's
member names, and on a known name they are idempotent: a second call
returns the same state the first produced. -/
theorem enable_disable_unknown_iff_and_idempotent (members : Council)
    (name : String) :
    ((∃ e, enable_member members name = .error e) ↔
      name ∉ councilNames members) ∧
    ((∃ e, disable_member members name = .error e) ↔
      name ∉ councilNames members) ∧
    (∀ m', enable_member members name = .ok m' →
      enable_member m' name = .ok m') ∧
    (∀ m', disable_member members name = .ok m' →
      disable_member m' name = .ok m') := by
  refine ⟨?_, ?_, ?_, ?_⟩
  · rw [← lookup_isSome_iff_mem_keys]
    unfold enable_member
    by_cases h : (members.lookup name).isSome <;> simp [h]
  · rw [← lookup_isSome_iff_mem_keys]
    unfold disable_member
    by_cases h : (members.lookup name).isSome <;> simp [h]
  · intro m' hm'
    unfold enable_member at hm' ⊢
    by_cases h : (members.lookup name).isSome
    · rw [if_pos h] at hm'
      injection hm' with hm'
      subst hm'
      rw [if_pos ((map_setFlag_lookup_isSome _ _ _).mpr h)]
      rw [map_setFlag_idem]
    · rw [if_neg h] at hm'
      exact absurd hm' (by simp)
  · intro m' hm'
    unfold disable_member at hm' ⊢
    by_cases h : (members.lookup name).isSome
    · rw [if_pos h] at hm'
      injection hm' with hm'
      subst hm'
      rw [if_pos ((map_setFlag_lookup_isSome _ _ _).mpr h)]
      rw [map_setFlag_idem]
    · rw [if_neg h] at hm'
      exact absurd hm' (by simp)

/-- Witness for C9 at a concrete input: on the initial council, enabling the
known member `claude` succeeds and is idempotent, and the iff holds. -/
theorem enable_disable_unknown_iff_and_idempotent_witness :
    ((∃ e, enable_member initMembers "claude" = .error e) ↔
      "claude" ∉ councilNames initMembers) ∧
    ((∃ e, disable_member initMembers "claude" = .error e) ↔
      "claude" ∉ councilNames initMembers) ∧
    (∀ m', enable_member initMembers "claude" = .ok m' →
      enable_member m' "claude" = .ok m') ∧
    (∀ m', disable_member initMembers "claude" = .ok m' →
      disable_member m' "claude" = .ok m') :=
  enable_disable_unknown_iff_and_idempotent initMembers "claude"

/-- Claim C3: `add_subtopic_node` succeeds exactly when some node of the
tree (root or descendant at any depth) carries the parent id; on failure
the tree is returned unchanged; on success the node found for the parent id
in the resulting tree is the original parent with the new node appended to
its children. -/
theorem add_subtopic_node_spec (t : Node) (pid : String) (nn : Node) :
    ((add_subtopic_node t pid nn).1 = true
        ↔ (find_node_by_id t pid).isSome) ∧
      ((add_subtopic_node t pid nn).1 = false
        → (add_subtopic_node t pid nn).2 = t) ∧
      (∀ p, find_node_by_id t pid = some p
        → find_node_by_id (add_subtopic_node t pid nn).2 pid
          = some (appendChild p nn)) :=
  ⟨add_found_iff_find.1 t pid nn, add_not_found_unchanged.1 t pid nn,
    fun p hp => add_found_appends_to_parent.1 t pid nn p hp⟩

/-- A small concrete leaf node for witnesses. -/
def demoLeaf (i : String) : Node :=
  Node.mk i ("topic of " ++ i) "completed" [] [] 0 0

/-- A concrete three-level tree for witnesses: root → c1 → g1 → d1, plus a
second child c2 of the root. -/
def demoTree : Node :=
  Node.mk "root" "t" "completed" []
    [Node.mk "c1" "t1" "completed" []
      [Node.mk "g1" "t2" "completed" [] [demoLeaf "d1"] 0 0] 0 0,
     demoLeaf "c2"] 0 0

/-- The depth-2 node of `demoTree` carrying id `g1`. -/
def demoG1 : Node := Node.mk "g1" "t2" "completed" [] [demoLeaf "d1"] 0 0

/-- Witness for C3: attaching under the depth-2 node `g1` of the concrete
tree succeeds, and the parent found afterwards is `g1` with the new node
appended. -/
theorem add_subtopic_node_spec_witness :
    ((add_subtopic_node demoTree "g1" (demoLeaf "new")).1 = true
        ↔ (find_node_by_id demoTree "g1").isSome) ∧
      (find_node_by_id demoTree "g1" = some demoG1) ∧
      (find_node_by_id (add_subtopic_node demoTree "g1" (demoLeaf "new")).2
          "g1" = some (appendChild demoG1 (demoLeaf "new"))) := by
  have h := add_subtopic_node_spec demoTree "g1" (demoLeaf "new")
  exact ⟨h.1, rfl, h.2.2 demoG1 rfl⟩

/-! ## Node.to_dict / Node.from_dict round trip -/

mutual

/-- A node (and, recursively, all of its descendants) has a truthy
(non-empty) `node_id`.  Every node the Python class builds satisfies this:
`Node.__init__` replaces a falsy `node_id` by a fresh `uuid4().hex`. -/
def nodeWF : Node → Bool
  | .mk i _ _ _ cs _ _ => (!(i = "")) && nodesWF cs

def nodesWF : List Node → Bool
  | [] => true
  | c :: rest => nodeWF c && nodesWF rest

end

/-- `Node.__init__` never produces a falsy `node_id` as long as the
generated `uuid4().hex` (modeled by `gen`) is itself non-empty, which a
32-character hex digest always is. -/
theorem init_node_id_not_falsy (gen : String) (now : Nat) (topic : String)
    (node_id : Option String) (status : String) (research : Option RDict)
    (children : Option (List Node)) (ca ua : Option Nat) (hgen : gen ≠ "") :
    (Node.init gen now topic node_id status research children ca ua).node_id
      ≠ "" := by
  unfold Node.init
  rcases node_id with _ | s
  · simp [Node.node_id]
    exact hgen
  · by_cases h : s = ""
    · simp [Node.node_id, h]
      exact hgen
    · simp [Node.node_id, h]

theorem from_to_dict_roundtrip_all (gen : String) (now : Nat) :
    (∀ n, nodeWF n = true → Node.from_dict gen now (Node.to_dict n) = n) ∧
      (∀ l, nodesWF l = true → fromDictList gen now (toDictList l) = l) := by
  apply Node.ind2L
  · intro i t s r cs ca ua ih h
    rw [nodeWF, Bool.and_eq_true] at h
    obtain ⟨hi, hcs⟩ := h
    rw [Node.to_dict, Node.from_dict, Node.init]
    simp only [Option.getD_some]
    have hi' : ¬(i = "") := by simpa using hi
    rw [if_neg hi']
    rw [(ih hcs : fromDictList gen now (toDictList cs) = cs)]
  · intro _
    rfl
  · intro c cs ihc ihcs h
    rw [nodesWF, Bool.and_eq_true] at h
    obtain ⟨hc, hcs⟩ := h
    rw [toDictList, fromDictList, ihc hc, ihcs hcs]

/-- Claim C10: serializing a Node with `to_dict` and reading it back with
`from_dict` reproduces the node exactly — `node_id`, `topic`, `status`,
`research`, timestamps and, recursively, `children` — provided every
`node_id` in the tree is truthy (non-empty), which holds for every node the
class constructs (see `init_node_id_not_falsy`); in particular the
`node_id` is preserved, not regenerated. -/
theorem node_to_from_dict_roundtrip (gen : String) (now : Nat) (n : Node)
    (h : nodeWF n = true) :
    Node.from_dict gen now (Node.to_dict n) = n :=
  (from_to_dict_roundtrip_all gen now).1 n h

/-- Witness for C10 on the concrete three-level tree. -/
theorem node_to_from_dict_roundtrip_witness :
    nodeWF demoTree = true ∧
      Node.from_dict "ffffffff" 7 (Node.to_dict demoTree) = demoTree :=
  ⟨rfl, node_to_from_dict_roundtrip "ffffffff" 7 demoTree rfl⟩

/-! ## Claim C2 -/

theorem lookup_map_pair {β : Type} (l : List String) (g : String → β)
    (name : String) (h : name ∈ l) :
    (l.map (fun n => (n, g n))).lookup name = some (g name) := by
  induction l with
  | nil => cases h
  | cons a rest ih =>
    by_cases ha : name = a
    · subst ha
      simp
    · rcases List.mem_cons.mp h with hh | hh
      · exact absurd hh ha
      · have hb : (name == a) = false := by simpa using ha
        simp only [List.map_cons, List.lookup_cons, hb]
        exact ih hh

/-- A council with all four members enabled, used in counterexamples. -/
def allEnabledMembers : Council :=
  [("claude", true), ("chatgpt", true), ("gemini", true), ("grok", true)]

/-- Counterexample to claim C2 as stated: with every member enabled and
every task failing, the node built for `grok` carries the six-key empty
research dict — `web_results` is NOT among its fields, although the claim
lists it among the canonical fields that must all be present. -/
theorem failed_member_research_lacks_web_results :
    ((conduct_research allEnabledMembers "t" (some "s") none
          (fun _ => ProvOutcome.exn "boom")).trees.lookup "grok")
        = some { node_id := some "s", topic := "t", status := "completed"
                 research := emptyResearchDict } ∧
      emptyResearchDict.lookup "web_results" = none := by
  exact ⟨rfl, rfl⟩

/-- Claim C2, amended: for every enabled member whose gathered task settled
with an exception, `conduct_research` still yields a node with
`status = "completed"` whose research dict has exactly the six fields
`summary`, `key_points`, `entities`, `timeline`, `further_research`,
`references`, each holding the type-appropriate empty value; the seventh
canonical field `web_results` is absent from this failure-branch dict. -/
theorem conduct_research_failed_member_node (members : Council)
    (topic : String) (sid pid : Option String) (f : String → ProvOutcome)
    (name : String) (hmem : name ∈ enabledNames members) (m : String)
    (hf : f name = ProvOutcome.exn m) :
    (conduct_research members topic sid pid f).trees.lookup name
        = some { node_id := sid, topic := topic, status := "completed"
                 research := emptyResearchDict } ∧
      emptyResearchDict.map Prod.fst
        = ["summary", "key_points", "entities", "timeline",
           "further_research", "references"] ∧
      emptyResearchDict.lookup "summary" = some (RVal.str "") ∧
      (∀ fld, fld ≠ "summary"
        → fld ∈ emptyResearchDict.map Prod.fst
        → emptyResearchDict.lookup fld = some (RVal.arr [])) ∧
      emptyResearchDict.lookup "web_results" = none := by
  refine ⟨?_, rfl, rfl, ?_, rfl⟩
  · simp only [conduct_research]
    rw [lookup_map_pair _ _ name hmem, hf]
  · intro fld hne hmem'
    simp only [emptyResearchDict, List.map_cons, List.map_nil, List.mem_cons,
      List.not_mem_nil, or_false] at hmem'
    rcases hmem' with h | h | h | h | h | h
    · exact absurd h hne
    all_goals (subst h; rfl)

/-- Witness for the amended C2 at a concrete input: all members enabled,
every task failing, member `grok`. -/
theorem conduct_research_failed_member_node_witness :
    (conduct_research allEnabledMembers "t" (some "s") none
          (fun _ => ProvOutcome.exn "boom")).trees.lookup "grok"
        = some { node_id := some "s", topic := "t", status := "completed"
                 research := emptyResearchDict } ∧
      emptyResearchDict.map Prod.fst
        = ["summary", "key_points", "entities", "timeline",
           "further_research", "references"] ∧
      emptyResearchDict.lookup "summary" = some (RVal.str "") ∧
      (∀ fld, fld ≠ "summary"
        → fld ∈ emptyResearchDict.map Prod.fst
        → emptyResearchDict.lookup fld = some (RVal.arr [])) ∧
      emptyResearchDict.lookup "web_results" = none :=
  conduct_research_failed_member_node allEnabledMembers "t" (some "s") none
    (fun _ => ProvOutcome.exn "boom") "grok" (by decide) "boom" rfl

/-! ## Claim C4 -/

/-- Counterexample to claim C4 as stated: the normalization step of
`GrokDeepSearchService.search` DOES raise on malformed non-JSON input
(`SearchError("Failed to parse Grok response as JSON")`), and for an input
that is a JSON object the filled-in field set is `required_fields` — which
contains `subtopics` and does not contain `web_results`. -/
theorem grok_normalize_raises_and_field_set :
    grokNormalize GrokContent.unparsable
        = .error "Failed to parse Grok response as JSON" ∧
      (∃ d, grokNormalize (GrokContent.parsed (RVal.obj [])) = .ok (RVal.obj d)
        ∧ d.lookup "web_results" = none
        ∧ d.lookup "subtopics" = some (RVal.arr [])) := by
  exact ⟨rfl, ⟨_, rfl, rfl, rfl⟩⟩

theorem fillFold_obj (fields : List String) (kvs : RDict) :
    ∃ d, List.foldlM fillStep (RVal.obj kvs) fields = .ok (RVal.obj d)
      ∧ (∀ fld v, kvs.lookup fld = some v → d.lookup fld = some v)
      ∧ (∀ fld, fld ∈ fields → (d.lookup fld).isSome)
      ∧ (∀ fld, fld ∈ fields → kvs.lookup fld = none
          → d.lookup fld = some (emptyFor fld)) := by
  induction fields generalizing kvs with
  | nil =>
    refine ⟨kvs, rfl, fun fld v h => h, ?_, ?_⟩
    · intro fld h
      cases h
    · intro fld h
      cases h
  | cons a rest ih =>
    rcases ha : kvs.lookup a with _ | v
    · -- `a` absent: the step appends the default at the end
      obtain ⟨d, hd, hpres, hsome, hfill⟩ := ih (kvs ++ [(a, emptyFor a)])
      have hstep : List.foldlM fillStep (RVal.obj kvs) (a :: rest)
          = List.foldlM fillStep (RVal.obj (kvs ++ [(a, emptyFor a)])) rest := by
        simp only [List.foldlM_cons, fillStep, ha, Option.isSome_none,
          Bool.false_eq_true, if_false]
        rfl
      have hasome : (kvs ++ [(a, emptyFor a)]).lookup a = some (emptyFor a) := by
        rw [List.lookup_append, ha]
        simp
      refine ⟨d, hstep ▸ hd, ?_, ?_, ?_⟩
      · intro fld v hv
        apply hpres
        rw [List.lookup_append, hv]
        rfl
      · intro fld hfld
        rcases List.mem_cons.mp hfld with hfld | hfld
        · subst hfld
          rw [hpres _ _ hasome]
          rfl
        · exact hsome fld hfld
      · intro fld hfld hnone
        rcases List.mem_cons.mp hfld with hfld | hfld
        · subst hfld
          exact hpres _ _ hasome
        · by_cases hfa : fld = a
          · subst hfa
            exact hpres _ _ hasome
          · apply hfill fld hfld
            rw [List.lookup_append, hnone]
            have hb : (fld == a) = false := by simpa using hfa
            simp [List.lookup_cons, hb]
    · -- `a` present: the step keeps the dict unchanged
      obtain ⟨d, hd, hpres, hsome, hfill⟩ := ih kvs
      have hstep : List.foldlM fillStep (RVal.obj kvs) (a :: rest)
          = List.foldlM fillStep (RVal.obj kvs) rest := by
        simp only [List.foldlM_cons, fillStep, ha, Option.isSome_some, if_true]
        rfl
      refine ⟨d, hstep ▸ hd, hpres, ?_, ?_⟩
      · intro fld hfld
        rcases List.mem_cons.mp hfld with hfld | hfld
        · subst hfld
          rw [hpres _ _ ha]
          rfl
        · exact hsome fld hfld
      · intro fld hfld hnone
        rcases List.mem_cons.mp hfld with hfld | hfld
        · subst hfld
          rw [hnone] at ha
          cases ha
        · exact hfill fld hfld hnone

/-- Claim C4, amended: for input whose content parses as a JSON object the
validation loop never raises and returns a dict that has every field of
`required_fields` — `summary`, `key_points`, `entities`, `subtopics`,
`timeline`, `further_research`, `references` (not `web_results`) — present:
already-present fields keep their value unchanged (there is no
shape-correction of present fields), absent ones are filled with the empty
string for `summary` and the empty list otherwise.  For content that does
not parse as JSON the step raises `SearchError` instead of returning. -/
theorem grok_normalize_fills_required_fields (kvs : RDict) :
    (∃ d, grokNormalize (GrokContent.parsed (RVal.obj kvs)) = .ok (RVal.obj d)
      ∧ (∀ fld v, kvs.lookup fld = some v → d.lookup fld = some v)
      ∧ (∀ fld, fld ∈ requiredFields → (d.lookup fld).isSome)
      ∧ (∀ fld, fld ∈ requiredFields → kvs.lookup fld = none
          → d.lookup fld = some (emptyFor fld))) ∧
    (∃ e, grokNormalize GrokContent.unparsable = .error e) := by
  exact ⟨fillFold_obj requiredFields kvs, ⟨_, rfl⟩⟩

/-- Witness for the amended C4 at a concrete input: an object carrying only
a `summary`; the fold keeps it and fills the six other required fields. -/
theorem grok_normalize_fills_required_fields_witness :
    (∃ d, grokNormalize
          (GrokContent.parsed (RVal.obj [("summary", RVal.str "hi")]))
        = .ok (RVal.obj d)
      ∧ (∀ fld v, [("summary", RVal.str "hi")].lookup fld = some v
          → d.lookup fld = some v)
      ∧ (∀ fld, fld ∈ requiredFields → (d.lookup fld).isSome)
      ∧ (∀ fld, fld ∈ requiredFields
          → [("summary", RVal.str "hi")].lookup fld = none
          → d.lookup fld = some (emptyFor fld))) ∧
    (∃ e, grokNormalize GrokContent.unparsable = .error e) :=
  grok_normalize_fills_required_fields [("summary", RVal.str "hi")]

/-! ## Claim C6 -/

/-- Counterexample to claim C6 as stated: in `AICouncil.conduct_research`,
even when EVERY enabled provider's task fails, no aggregate failure is
raised — the call returns normally with one `completed` empty-result node
per enabled member. -/
theorem all_providers_fail_no_aggregate_raise :
    (conduct_research allEnabledMembers "t" (some "s") none
          (fun _ => ProvOutcome.exn "boom")).trees.map Prod.fst
        = ["claude", "chatgpt", "gemini", "grok"] ∧
      (conduct_research allEnabledMembers "t" (some "s") none
          (fun _ => ProvOutcome.exn "boom")).trees.map
            (fun p => p.2.status)
        = ["completed", "completed", "completed", "completed"] ∧
      (conduct_research allEnabledMembers "t" (some "s") none
          (fun _ => ProvOutcome.exn "boom")).trees.map
            (fun p => p.2.research)
        = [emptyResearchDict, emptyResearchDict, emptyResearchDict,
           emptyResearchDict] := by
  exact ⟨rfl, rfl, rfl⟩

/-- Claim C6, amended: in `ResearchOrchestrator.run_research` a single
research component's failure is recorded as data (a warning on a normal
`paused_research` return), not re-raised, and the aggregate failure
`All research components failed` is raised exactly when both components
settled with no result.  `AICouncil.conduct_research`, by contrast, never
raises an aggregate failure: for every council and outcome oracle —
including one where all enabled providers fail — it returns a `Trees`
with exactly the enabled members as keys. -/
theorem run_research_aggregate_iff_both_fail (g k : Option RDict) :
    ((∃ e, run_research g k = .error e) ↔ g = none ∧ k = none) ∧
      (∀ r, run_research g k = .ok r →
        r.status = "paused_research" ∧ r.warnings = componentError g k) ∧
      (∀ (members : Council) topic sid pid f,
        (conduct_research members topic sid pid f).trees.map Prod.fst
          = enabledNames members) := by
  refine ⟨?_, ?_, ?_⟩
  · rcases g with _ | gv <;> rcases k with _ | kv <;>
      simp [run_research]
  · intro r hr
    unfold run_research at hr
    by_cases h : (g.isNone && k.isNone) = true
    · rw [if_pos h] at hr
      cases hr
    · rw [if_neg h] at hr
      injection hr with hr
      rw [← hr]
      exact ⟨rfl, rfl⟩
  · intro members topic sid pid f
    simp only [conduct_research]
    exact map_fst_map_pair _ _

/-- Witness for the amended C6 at a concrete input: Google settled with a
result, Grok's task raised — `run_research` returns normally with the
single failure recorded as a warning. -/
theorem run_research_aggregate_iff_both_fail_witness :
    run_research (some []) none
        = .ok { status := "paused_research"
                warnings := some "Grok DeepSearch error" } ∧
      ({ status := "paused_research"
         warnings := some "Grok DeepSearch error" } : RunResearchOut).status
          = "paused_research" ∧
      ({ status := "paused_research"
         warnings := some "Grok DeepSearch error" } : RunResearchOut).warnings
          = componentError (some []) none :=
  ⟨rfl, (run_research_aggregate_iff_both_fail (some []) none).2.1 _ rfl⟩

/-! ## Claim C5 -/

theorem chunks3_mem_length_le (l : List TopicData) :
    ∀ b ∈ chunks3 l, b.length ≤ 3 := by
  induction l using chunks3.induct <;> simp_all [chunks3]

theorem chunks3_join (l : List TopicData) : (chunks3 l).flatten = l := by
  induction l using chunks3.induct <;> simp_all [chunks3]

theorem recordResults_spec (total : Nat) (pairs : List (SubResult × TopicData)) :
    ∀ completed : Nat,
      (recordResults total pairs completed).2.2 = completed + pairs.length ∧
      (recordResults total pairs completed).2.1
        = (List.range' (completed + 1) pairs.length).map (fun c => (total, c)) := by
  induction pairs with
  | nil =>
    intro completed
    exact ⟨rfl, rfl⟩
  | cons p rest ih =>
    intro completed
    obtain ⟨r, td⟩ := p
    have h := ih (completed + 1)
    refine ⟨?_, ?_⟩
    · simp only [recordResults]
      rw [h.1, List.length_cons]
      omega
    · simp only [recordResults]
      rw [h.2, List.length_cons, List.range'_succ, List.map_cons]

/-- Length of the gathered batch results: one per task, never more than the
batch size. -/
theorem batch_zip_length (f : Nat → SubResult) (taskIdx : Nat)
    (batch : List TopicData) :
    (((List.range (batchTasks batch).length).map
        (fun j => f (taskIdx + j))).zip batch).length
      = (batchTasks batch).length := by
  rw [List.length_zip, List.length_map, List.length_range]
  exact Nat.min_eq_left (List.length_filter_le _ _)

theorem runBatches_spec (f : Nat → SubResult) (total : Nat)
    (batches : List (List TopicData)) :
    ∀ taskIdx completed : Nat,
      (runBatches f total batches taskIdx completed).2.2.2
        = completed + (batches.map (fun b => (batchTasks b).length)).sum ∧
      (runBatches f total batches taskIdx completed).2.1
        = (List.range' (completed + 1)
            ((batches.map (fun b => (batchTasks b).length)).sum)).map
              (fun c => (total, c)) := by
  induction batches with
  | nil =>
    intro taskIdx completed
    exact ⟨rfl, by simp [runBatches]⟩
  | cons batch rest ih =>
    intro taskIdx completed
    have hrec := recordResults_spec total
      (((List.range (batchTasks batch).length).map
        (fun j => f (taskIdx + j))).zip batch) completed
    have hc : (recordResults total
        (((List.range (batchTasks batch).length).map
          (fun j => f (taskIdx + j))).zip batch) completed).2.2
        = completed + (batchTasks batch).length := by
      rw [hrec.1, batch_zip_length]
    have hrest := ih (taskIdx + (batchTasks batch).length)
      (completed + (batchTasks batch).length)
    refine ⟨?_, ?_⟩
    · simp only [runBatches, hc, hrest.1, List.map_cons, List.sum_cons]
      omega
    · simp only [runBatches, hc, hrest.2, hrec.2, batch_zip_length,
        List.map_cons, List.sum_cons]
      have hs : completed + (batchTasks batch).length + 1
          = completed + 1 + (batchTasks batch).length := by omega
      rw [hs, ← List.map_append, List.range'_append_1,
        Nat.add_comm ((batchTasks batch).length)
          ((rest.map (fun b => (batchTasks b).length)).sum)]

theorem sum_filter_lengths (batches : List (List TopicData)) :
    (batches.map (fun b => (batchTasks b).length)).sum
      = (batches.flatten.filter (fun td => td.topic ≠ "")).length := by
  induction batches with
  | nil => rfl
  | cons b rest ih =>
    simp only [List.map_cons, List.sum_cons, List.flatten_cons,
      List.filter_append, List.length_append, batchTasks] at ih ⊢
    rw [ih]

theorem cons_zero_progress_closed (total S : Nat) :
    ((total, 0) :: (List.range' 1 S).map (fun c => (total, c)))
      = (List.range (S + 1)).map (fun c => (total, c)) := by
  rw [List.range'_eq_map_range, List.range_succ_eq_map, List.map_cons,
    List.map_map, List.map_map]
  refine congrArg _ ?_
  apply List.map_congr_left
  intro c _
  simp [Function.comp, Nat.succ_eq_add_one, Nat.add_comm]

/-- Counterexample to claim C5 as stated: a single selected topic whose
`topic` name is empty is skipped by the batch loop without recording any
outcome, so the final `completed_topics` is `0`, not the length `1` of the
input list. -/
theorem research_selected_skips_empty_names :
    (research_selected_subtopics [{ topic := "", rationale := "r" }]
        (fun _ => SubResult.exn "x")).subtopics_researched = 0 ∧
      ([{ topic := "", rationale := "r" }] : List TopicData).length = 1 ∧
      (research_selected_subtopics [{ topic := "", rationale := "r" }]
        (fun _ => SubResult.exn "x")).calls = [] := by
  exact ⟨rfl, rfl, rfl⟩

/-- Claim C5, amended: for a non-empty topic list the topics are processed
in sequential batches of at most 3; the recorded progress snapshots are
exactly `(total, 0), (total, 1), …` — monotonically non-decreasing in the
completed count — and the final completed count equals the number of
selected topics with a NON-EMPTY topic name (a topic with an empty/missing
name is skipped without an outcome), even when some topics error. -/
theorem research_selected_subtopics_spec (topics : List TopicData)
    (f : Nat → SubResult) (h : topics ≠ []) :
    (∀ b ∈ chunks3 topics, b.length ≤ 3) ∧
      (chunks3 topics).flatten = topics ∧
      (research_selected_subtopics topics f).progress
        = (List.range ((topics.filter (fun td => td.topic ≠ "")).length + 1)).map
            (fun c => (topics.length, c)) ∧
      List.Chain' (fun p q : Nat × Nat => p.2 ≤ q.2)
        (research_selected_subtopics topics f).progress ∧
      (research_selected_subtopics topics f).subtopics_researched
        = (topics.filter (fun td => td.topic ≠ "")).length := by
  have hne : ¬(topics.isEmpty = true) := by
    simpa [List.isEmpty_iff] using h
  have hrb := runBatches_spec f topics.length (chunks3 topics) 0 0
  have hS : ((chunks3 topics).map (fun b => (batchTasks b).length)).sum
      = (topics.filter (fun td => td.topic ≠ "")).length := by
    rw [sum_filter_lengths, chunks3_join]
  have hprog : (research_selected_subtopics topics f).progress
      = (List.range ((topics.filter (fun td => td.topic ≠ "")).length + 1)).map
          (fun c => (topics.length, c)) := by
    simp only [research_selected_subtopics, if_neg hne]
    rw [hrb.2, hS, Nat.zero_add, cons_zero_progress_closed]
  refine ⟨chunks3_mem_length_le topics, chunks3_join topics, hprog, ?_, ?_⟩
  · rw [hprog]
    rw [List.chain'_map]
    rw [show (topics.filter (fun td => td.topic ≠ "")).length + 1
      = Nat.succ ((topics.filter (fun td => td.topic ≠ "")).length) from rfl]
    rw [List.chain'_range_succ]
    intro m _
    exact Nat.le_succ m
  · simp only [research_selected_subtopics, if_neg hne]
    rw [hrb.1, hS, Nat.zero_add]

/-- Concrete topic list for the C5 witness: four topics, the second with an
empty name. -/
def demoTopics : List TopicData :=
  [⟨"a", "ra"⟩, ⟨"", "rb"⟩, ⟨"b", "rc"⟩, ⟨"c", "rd"⟩]

/-- Concrete outcome oracle for the C5 witness: the second created task
errors, the others complete. -/
def demoSubOutcome : Nat → SubResult :=
  fun j => if j = 1 then SubResult.exn "boom"
    else SubResult.res (OutcomeRec.completed "t" "s")

/-- Witness for the amended C5 at a concrete input: four topics, one with
an empty name, the second task erroring. -/
theorem research_selected_subtopics_spec_witness :
    (∀ b ∈ chunks3 demoTopics, b.length ≤ 3) ∧
      (chunks3 demoTopics).flatten = demoTopics ∧
      (research_selected_subtopics demoTopics demoSubOutcome).progress
        = (List.range
            ((demoTopics.filter (fun td => td.topic ≠ "")).length + 1)).map
            (fun c => (demoTopics.length, c)) ∧
      List.Chain' (fun p q : Nat × Nat => p.2 ≤ q.2)
        (research_selected_subtopics demoTopics demoSubOutcome).progress ∧
      (research_selected_subtopics demoTopics demoSubOutcome).subtopics_researched
        = (demoTopics.filter (fun td => td.topic ≠ "")).length :=
  research_selected_subtopics_spec demoTopics demoSubOutcome
    (by simp [demoTopics])

end ACouncil
